import Mathlib

/-!
Verification of the probabilistic model subsystem of `anvil`
(`anvil/distributions.py`): base distributions and lattice action models.

Each Python class is embedded as a Lean structure carrying its constructor
parameters, with its methods as functions on that structure. Tensors of
shape `(sample_size, 1, n_lattice)` are modelled one batch element at a
time as functions `Fin n_lattice → ℝ`, since every operation involved maps
the batch dimension pointwise. Machine floats are modelled as real
numbers; the Python `math.log` and `/` operations, which raise on
non-positive respectively zero arguments, are modelled as `Option`-valued
functions where `none` stands for a raised exception.
-/

noncomputable section

namespace Anvil

open Real
open scoped BigOperators

/-- Python `math.log`: raises `ValueError` (modelled as `none`) unless the
argument is strictly positive; on a positive argument it returns the real
logarithm. -/
def pyLog (x : ℝ) : Option ℝ :=
  if 0 < x then some (Real.log x) else none

/-- Python division: raises `ZeroDivisionError` (modelled as `none`) when the
denominator is zero. -/
def pyDiv (a b : ℝ) : Option ℝ :=
  if b = 0 then none else some (a / b)

/-- Floating-point modulus as computed by Python/torch `%` on reals: the
result has the sign of the divisor, so for a positive divisor `y` the result
lies in `[0, y)`. -/
def fmod (x y : ℝ) : ℝ := x - y * ⌊x / y⌋

/-- Order-0 modified Bessel function of the first kind (scipy's `i0`),
via its everywhere-convergent power series. Used opaquely inside the von
Mises normalisation constant. -/
def besselI0 (x : ℝ) : ℝ :=
  tsum fun k : ℕ => (x / 2) ^ (2 * k) / ((Nat.factorial k : ℝ)) ^ 2

/-! ## NormalDist (`distributions.py` lines 13-69) -/

/-- State of a constructed `NormalDist` object: lattice size and the two
distribution parameters fixed at construction. -/
structure NormalDist where
  n_lattice : ℕ
  sigma : ℝ
  mean : ℝ

/-- `self.exp_coeff = 1 / (2 * self.sigma ** 2)` (line 37). -/
def NormalDist.exp_coeff (d : NormalDist) : ℝ := 1 / (2 * d.sigma ^ 2)

/-- `self.log_normalisation = n_lattice * log(sqrt(2 * pi) * self.sigma)`
(line 40). -/
def NormalDist.log_normalisation (d : NormalDist) : ℝ :=
  (d.n_lattice : ℝ) * Real.log (Real.sqrt (2 * π) * d.sigma)

/-- `NormalDist.log_density` (lines 55-58), one batch element:
`exponent = -exp_coeff * (sample - mean)**2 summed over sites`, then
`exponent - log_normalisation`. -/
def NormalDist.log_density (d : NormalDist) (sample : Fin d.n_lattice → ℝ) : ℝ :=
  (-d.exp_coeff * ∑ i, (sample i - d.mean) ^ 2) - d.log_normalisation

/-- `NormalDist.__call__` (lines 42-53), one batch element. The torch draw
`empty(...).normal_(mean, std)` is modelled as `mean + sigma * z` for a
realisation `z` of the underlying standard-normal draws; the method then
returns the pair `(sample, self.log_density(sample))`. -/
def NormalDist.call (d : NormalDist) (z : Fin d.n_lattice → ℝ) :
    (Fin d.n_lattice → ℝ) × ℝ :=
  let sample : Fin d.n_lattice → ℝ := fun i => d.mean + d.sigma * z i
  (sample, d.log_density sample)

/-- `NormalDist.__init__` (lines 32-40) with Python exception semantics:
line 37 divides by `2 * sigma ** 2` and line 40 takes
`log(sqrt(2 * pi) * sigma)`; either may raise, in which case construction
fails (`none`). -/
def NormalDist.init (n_lattice : ℕ) (sigma mean : ℝ) : Option NormalDist :=
  (pyDiv 1 (2 * sigma ^ 2)).bind fun _ =>
    (pyLog (Real.sqrt (2 * π) * sigma)).map fun _ =>
      ⟨n_lattice, sigma, mean⟩

/-! ## UniformDist (`distributions.py` lines 72-109) -/

/-- State of a constructed `UniformDist` object. -/
structure UniformDist where
  n_lattice : ℕ
  x_min : ℝ
  x_max : ℝ

/-- `self.log_normalisation = log(self.x_max - self.x_min)` (line 89).
Note: the source has no `n_lattice` factor here, unlike every other
distribution class. -/
def UniformDist.log_normalisation (d : UniformDist) : ℝ :=
  Real.log (d.x_max - d.x_min)

/-- `UniformDist.log_density` (lines 90-92), one batch element:
`torch.zeros((sample.shape[0], 1)) - self.log_normalisation`, i.e. the
constant `0 - log_normalisation` regardless of the sample values. -/
def UniformDist.log_density (d : UniformDist) (sample : Fin d.n_lattice → ℝ) : ℝ :=
  0 - d.log_normalisation

/-- `UniformDist.__call__` (lines 94-104), one batch element. The torch draw
`empty(...).uniform_(x_min, x_max)` is modelled as `x_min + (x_max - x_min) * u`
for a realisation `u` of the underlying standard-uniform draws. -/
def UniformDist.call (d : UniformDist) (u : Fin d.n_lattice → ℝ) :
    (Fin d.n_lattice → ℝ) × ℝ :=
  let sample : Fin d.n_lattice → ℝ := fun i => d.x_min + (d.x_max - d.x_min) * u i
  (sample, d.log_density sample)

/-- `UniformDist.__init__` (lines 84-92): line 89 takes
`log(x_max - x_min)`, which raises unless `x_max - x_min > 0`. -/
def UniformDist.init (n_lattice : ℕ) (x_min x_max : ℝ) : Option UniformDist :=
  (pyLog (x_max - x_min)).map fun _ => ⟨n_lattice, x_min, x_max⟩

/-! ## SemicircleDist (`distributions.py` lines 112-161) -/

/-- State of a constructed `SemicircleDist` object. -/
structure SemicircleDist where
  n_lattice : ℕ
  radius : ℝ
  mean : ℝ

/-- `self.log_normalisation = n_lattice * log((pi * self.radius ** 2) / 2)`
(line 131). -/
def SemicircleDist.log_normalisation (d : SemicircleDist) : ℝ :=
  (d.n_lattice : ℝ) * Real.log (π * d.radius ^ 2 / 2)

/-- `SemicircleDist.log_density` (lines 148-155), one batch element:
`sum over sites of 0.5 * log(radius**2 - (sample - mean)**2)` minus the
normalisation. The source applies `torch.log` with no domain guard; `torch.log`
never raises, so the embedding is a total function. -/
def SemicircleDist.log_density (d : SemicircleDist) (sample : Fin d.n_lattice → ℝ) : ℝ :=
  (∑ i, 0.5 * Real.log (d.radius ^ 2 - (sample i - d.mean) ^ 2)) -
    d.log_normalisation

/-- `SemicircleDist.__call__` (lines 133-146), one batch element:
`sample = radius * sqrt(u) * cos(v) + mean` with `u ~ uniform_()` and
`v ~ uniform_(0, pi)` the underlying draws, then
`(sample, self.log_density(sample))`. -/
def SemicircleDist.call (d : SemicircleDist) (u v : Fin d.n_lattice → ℝ) :
    (Fin d.n_lattice → ℝ) × ℝ :=
  let sample : Fin d.n_lattice → ℝ :=
    fun i => d.radius * Real.sqrt (u i) * Real.cos (v i) + d.mean
  (sample, d.log_density sample)

/-- `SemicircleDist.__init__` (lines 126-131): line 131 takes
`log((pi * radius ** 2) / 2)`, which raises exactly when
`pi * radius ** 2 / 2` is not positive, i.e. when `radius = 0`. -/
def SemicircleDist.init (n_lattice : ℕ) (radius mean : ℝ) : Option SemicircleDist :=
  (pyLog (π * radius ^ 2 / 2)).map fun _ => ⟨n_lattice, radius, mean⟩

/-! ## VonMisesDist (`distributions.py` lines 164-237) -/

/-- State of a constructed `VonMisesDist` object. -/
structure VonMisesDist where
  n_lattice : ℕ
  kappa : ℝ
  mean : ℝ

/-- `self.log_normalisation = n_lattice * log(2 * pi * i0(self.kappa))`
(line 204). -/
def VonMisesDist.log_normalisation (d : VonMisesDist) : ℝ :=
  (d.n_lattice : ℝ) * Real.log (2 * π * besselI0 d.kappa)

/-- `VonMisesDist.log_density` (lines 221-226), one batch element:
`kappa * cos(sample - mean) summed over sites - log_normalisation`. -/
def VonMisesDist.log_density (d : VonMisesDist) (sample : Fin d.n_lattice → ℝ) : ℝ :=
  d.kappa * (∑ i, Real.cos (sample i - d.mean)) - d.log_normalisation

/-- The final wrap applied by `torch.distributions.von_mises.VonMises.sample`
(the external sampler installed at line 206-208): the rejection-sampled value
`x` is returned as `(x + pi + loc) % (2 * pi) - pi`, hence always lies in
`[-pi, pi)`. `x` is kept as a free realisation parameter. -/
def VonMisesDist.generator (d : VonMisesDist) (x : ℝ) : ℝ :=
  fmod (x + π + d.mean) (2 * π) - π

/-- `VonMisesDist.__call__` (lines 210-219), one batch element:
`sample = self.generator(...) + pi`, then `(sample, self.log_density(sample))`. -/
def VonMisesDist.call (d : VonMisesDist) (x : Fin d.n_lattice → ℝ) :
    (Fin d.n_lattice → ℝ) × ℝ :=
  let sample : Fin d.n_lattice → ℝ := fun i => d.generator (x i) + π
  (sample, d.log_density sample)

/-! ## SphericalUniformDist (`distributions.py` lines 240-298) -/

/-- State of a constructed `SphericalUniformDist` object. -/
structure SphericalUniformDist where
  n_lattice : ℕ

/-- `SphericalUniformDist.log_density` (lines 281-292), one batch element.
The sample tensor has shape `(sample_size, 2, n_lattice)`; channel 0
(`sample[:, 0, :]`) is the polar angle. The result is
`log(sin(polar)) summed over sites`. -/
def SphericalUniformDist.log_density (d : SphericalUniformDist)
    (sample : (Fin d.n_lattice → ℝ) × (Fin d.n_lattice → ℝ)) : ℝ :=
  ∑ i, Real.log (Real.sin (sample.1 i))

/-- `SphericalUniformDist.__call__` (lines 255-279), one batch element:
`polar = acos(1 - 2 * rand)`, `azimuth = rand * 2 * pi` from standard-uniform
realisations `u`, `v`; the log-density is computed in place as
`log(sin(polar)) summed over sites` rather than through the
`log_density` method. -/
def SphericalUniformDist.call (d : SphericalUniformDist)
    (u v : Fin d.n_lattice → ℝ) :
    ((Fin d.n_lattice → ℝ) × (Fin d.n_lattice → ℝ)) × ℝ :=
  let polar : Fin d.n_lattice → ℝ := fun i => Real.arccos (1 - 2 * u i)
  let azimuth : Fin d.n_lattice → ℝ := fun i => v i * (2 * π)
  ((polar, azimuth), ∑ i, Real.log (Real.sin (polar i)))

/-! ## Shape-aware tensor helpers

The action classes index a configuration tensor of last dimension `m` with a
precomputed neighbour-shift integer table of shape `(n_shift, n_lattice)` and
then multiply the result elementwise against the configuration itself. When
the configuration's lattice size `m` differs from the geometry's `n_lattice`,
torch raises an `IndexError` (an index in the table is out of bounds for the
configuration) or a broadcasting `RuntimeError` (trailing dimensions
`n_lattice` and `m` are incompatible), except where one of the two trailing
dimensions is 1, in which case torch silently broadcasts. The `checked`
variants of the action log-densities below return `none` exactly when torch
raises, and otherwise the value torch computes. -/

/-- Value lookup in the last tensor dimension; out-of-bounds positions are
never consulted because the `checked` definitions guard all indices first. -/
def atD {m : ℕ} (f : Fin m → ℝ) (j : ℕ) : ℝ :=
  if h : j < m then f ⟨j, h⟩ else 0

/-- Entry `(dir, j)` of the integer shift table (the tensor returned by
`geometry.get_shift()`), as a natural number index. -/
def shiftAt {n d : ℕ} (shift : Fin d → Fin n → Fin n) (dir : Fin d) (j : ℕ) : ℕ :=
  if h : j < n then (shift dir ⟨j, h⟩ : ℕ) else 0

/-- Torch broadcasting of a length-`k` trailing dimension across the
broadcast length: a size-1 dimension repeats its single entry, otherwise the
position is used as is. -/
def bcastIdx (k : ℕ) (j : ℕ) : ℕ := if k = 1 then 0 else j

/-- All entries of the shift table are valid indices into a configuration of
lattice size `m` (torch advanced indexing validates every index). -/
def indexOK {n d : ℕ} (shift : Fin d → Fin n → Fin n) (m : ℕ) : Prop :=
  ∀ dir i, (shift dir i : ℕ) < m

/-- Torch can broadcast trailing dimensions `n` and `m`: they are equal or
one of them is 1. -/
def broadcastOK (n m : ℕ) : Prop := n = m ∨ n = 1 ∨ m = 1

instance {n d : ℕ} (shift : Fin d → Fin n → Fin n) (m : ℕ) :
    Decidable (indexOK shift m) := by unfold indexOK; infer_instance

instance (n m : ℕ) : Decidable (broadcastOK n m) := by
  unfold broadcastOK; infer_instance

/-! ## PhiFourAction (`distributions.py` lines 345-417) -/

/-- State of a constructed `PhiFourAction` object: the couplings, the
convention flag, and the geometry data it keeps (`n_lattice = length ** 2`
and the shift table from `geometry.get_shift()`, one row per positive
neighbour direction). -/
structure PhiFourAction where
  m_sq : ℝ
  lam : ℝ
  use_arxiv_version : Bool
  n_lattice : ℕ
  n_shift : ℕ
  shift : Fin n_shift → Fin n_lattice → Fin n_lattice

/-- `self.version_factor = 2 if use_arxiv_version else 1` (lines 393-396). -/
def PhiFourAction.version_factor (a : PhiFourAction) : ℝ :=
  if a.use_arxiv_version then 2 else 1

/-- `PhiFourAction.log_density` (lines 400-417), one batch element, for a
configuration matching the geometry's lattice size: per site
`version_factor * (2 + 0.5 * m_sq) * phi**2 + lam * phi**4
 - version_factor * sum over shift directions of phi[shift] * phi`,
summed over sites and negated. -/
def PhiFourAction.log_density (a : PhiFourAction)
    (phi_state : Fin a.n_lattice → ℝ) : ℝ :=
  -(∑ i, (a.version_factor * (2 + 0.5 * a.m_sq) * phi_state i ^ 2
      + a.lam * phi_state i ^ 4
      - a.version_factor * ∑ dir, phi_state (a.shift dir i) * phi_state i))

/-- `PhiFourAction.log_density` (lines 400-417) on a configuration of
arbitrary lattice size `m`, with torch's shape semantics made explicit:
`none` when torch raises (bad index or incompatible broadcast), otherwise
the broadcast value torch computes. -/
def PhiFourAction.log_density_checked (a : PhiFourAction) {m : ℕ}
    (phi_state : Fin m → ℝ) : Option ℝ :=
  if indexOK a.shift m ∧ broadcastOK a.n_lattice m then
    some (-(∑ j : Fin (max a.n_lattice m),
      (a.version_factor * (2 + 0.5 * a.m_sq) * atD phi_state (bcastIdx m j) ^ 2
        + a.lam * atD phi_state (bcastIdx m j) ^ 4
        - a.version_factor * ∑ dir,
            atD phi_state (shiftAt a.shift dir (bcastIdx a.n_lattice j)) *
              atD phi_state (bcastIdx m j))))
  else none

/-! ## O2Action (`distributions.py` lines 420-459) -/

/-- State of a constructed `O2Action` object. -/
structure O2Action where
  beta : ℝ
  n_lattice : ℕ
  n_shift : ℕ
  shift : Fin n_shift → Fin n_lattice → Fin n_lattice

/-- `O2Action.log_density` (lines 447-459), one batch element:
`action = -beta * cos(state[shift] - state)` summed first over shift
directions then over sites; the method returns `-action`. -/
def O2Action.log_density (a : O2Action) (state : Fin a.n_lattice → ℝ) : ℝ :=
  -(-a.beta * ∑ i, ∑ dir, Real.cos (state (a.shift dir i) - state i))

/-- `O2Action.log_density` (lines 447-459) on a configuration of arbitrary
lattice size `m`, with torch's shape semantics made explicit. -/
def O2Action.log_density_checked (a : O2Action) {m : ℕ}
    (state : Fin m → ℝ) : Option ℝ :=
  if indexOK a.shift m ∧ broadcastOK a.n_lattice m then
    some (-(-a.beta * ∑ j : Fin (max a.n_lattice m), ∑ dir,
      Real.cos (atD state (shiftAt a.shift dir (bcastIdx a.n_lattice j)) -
        atD state (bcastIdx m j))))
  else none

/-! ## O3Action (`distributions.py` lines 462-528) -/

/-- State of a constructed `O3Action` object. -/
structure O3Action where
  beta : ℝ
  n_lattice : ℕ
  n_shift : ℕ
  shift : Fin n_shift → Fin n_lattice → Fin n_lattice

/-- `O3Action.log_density` (lines 491-528), one batch element. The state
tensor of shape `(sample_size, 2, n_lattice)` is split into its polar
(channel 0) and azimuthal (channel 1) components, modelled as the two
components of a pair. Per site and direction the coupling is
`cos_polar[shift] * cos_polar + sin_polar[shift] * sin_polar
  * cos(azimuth[shift] - azimuth)`; `action = -beta *` its sum over
directions then sites, and the method returns
`log(sin_polar) summed over sites - action`. -/
def O3Action.log_density (a : O3Action)
    (state : (Fin a.n_lattice → ℝ) × (Fin a.n_lattice → ℝ)) : ℝ :=
  (∑ i, Real.log (Real.sin (state.1 i))) -
    (-a.beta * ∑ i, ∑ dir,
      (Real.cos (state.1 (a.shift dir i)) * Real.cos (state.1 i)
        + Real.sin (state.1 (a.shift dir i)) * Real.sin (state.1 i) *
          Real.cos (state.2 (a.shift dir i) - state.2 i)))

/-- `O3Action.log_density` (lines 491-528) on a configuration of arbitrary
lattice size `m` (polar and azimuth channels), with torch's shape semantics
made explicit. The volume-element term is a per-site elementwise map of the
polar channel and needs no broadcasting. -/
def O3Action.log_density_checked (a : O3Action) {m : ℕ}
    (polar azimuth : Fin m → ℝ) : Option ℝ :=
  if indexOK a.shift m ∧ broadcastOK a.n_lattice m then
    some ((∑ i, Real.log (Real.sin (polar i))) -
      (-a.beta * ∑ j : Fin (max a.n_lattice m), ∑ dir,
        (Real.cos (atD polar (shiftAt a.shift dir (bcastIdx a.n_lattice j))) *
            Real.cos (atD polar (bcastIdx m j))
          + Real.sin (atD polar (shiftAt a.shift dir (bcastIdx a.n_lattice j))) *
              Real.sin (atD polar (bcastIdx m j)) *
              Real.cos (atD azimuth (shiftAt a.shift dir (bcastIdx a.n_lattice j)) -
                atD azimuth (bcastIdx m j)))))
  else none

/-! ## Claim-side formulas

These two definitions follow the wording of the specification, to be compared
with the embeddings of the source above. -/

/-- The claim's formula for the phi-four log-density: the negation of the sum
over sites of
`version_factor * (2 + m_sq / 2) * phi**2 + lam * phi**4
 - version_factor * sum over directions of phi(site) * phi(neighbor)`,
with `version_factor` equal to 2 when `use_arxiv_version` is set and 1
otherwise. -/
def phiFourClaimLogDensity (m_sq lam : ℝ) (use_arxiv_version : Bool)
    {n d : ℕ} (shift : Fin d → Fin n → Fin n) (phi : Fin n → ℝ) : ℝ :=
  -(∑ i, ((if use_arxiv_version then (2 : ℝ) else 1) * (2 + m_sq / 2) * phi i ^ 2
      + lam * phi i ^ 4
      - (if use_arxiv_version then (2 : ℝ) else 1) *
          ∑ dir, phi i * phi (shift dir i)))

/-- The claim's formula for the O3 log-density: `sum over sites of
log(sin(polar))` minus the action, where the action is the sum over sites
and positive neighbour directions of
`-beta * (cos θ * cos θ_neighbor + sin θ * sin θ_neighbor * cos (φ - φ_neighbor))`. -/
def o3ClaimLogDensity (beta : ℝ) {n d : ℕ} (shift : Fin d → Fin n → Fin n)
    (polar azimuth : Fin n → ℝ) : ℝ :=
  (∑ i, Real.log (Real.sin (polar i))) -
    ∑ i, ∑ dir,
      -beta * (Real.cos (polar i) * Real.cos (polar (shift dir i))
        + Real.sin (polar i) * Real.sin (polar (shift dir i)) *
          Real.cos (azimuth i - azimuth (shift dir i)))

/-! ## Helper lemmas -/

theorem fmod_mem_Ico (x y : ℝ) (hy : 0 < y) : fmod x y ∈ Set.Ico 0 y := by
  have hy' : y ≠ 0 := ne_of_gt hy
  have he : fmod x y = y * Int.fract (x / y) := by
    unfold fmod Int.fract
    rw [mul_sub, mul_div_cancel₀ _ hy']
  rw [he]
  constructor
  · exact mul_nonneg hy.le (Int.fract_nonneg _)
  · have h1 : y * Int.fract (x / y) < y * 1 :=
      mul_lt_mul_of_pos_left (Int.fract_lt_one _) hy
    simpa using h1

/-! ## Claim theorems -/

/-- C1: the spec says `UniformDist.log_density` returns the constant
`-n_lattice * log(hi - lo)` for each batch element. The code instead returns
`-log(hi - lo)` with no `n_lattice` factor (line 89 lacks the `n_lattice *`
present in every other distribution's normalisation). At `n_lattice = 2`,
`support = (0, 2)` the code returns `-log 2` for every configuration, which
differs from the specified `-(2 * log 2)`. -/
theorem C1_uniform_log_density_missing_lattice_factor (sample : Fin 2 → ℝ) :
    (UniformDist.mk 2 0 2).log_density sample = -Real.log 2 ∧
      (UniformDist.mk 2 0 2).log_density sample ≠ -((2 : ℝ) * Real.log 2) := by
  have hval : (UniformDist.mk 2 0 2).log_density sample = -Real.log 2 := by
    unfold UniformDist.log_density UniformDist.log_normalisation
    norm_num
  refine ⟨hval, ?_⟩
  rw [hval]
  intro hcontra
  have hlog : 0 < Real.log 2 := Real.log_pos (by norm_num)
  have : Real.log 2 = 2 * Real.log 2 := by linarith [neg_injective hcontra]
  linarith

/-- C2: for every distribution variant with valid parameters and every
realisation of the underlying draws, the log-density returned as the second
component of a sampling call equals the `log_density` method applied to the
returned configuration. -/
theorem C2_sample_reports_own_log_density
    (n : ℕ) (sigma mu lo hi r mus kappa muv : ℝ)
    (hsigma : 0 < sigma) (hsupp : lo < hi) (hr : 0 < r) (hkappa : 0 ≤ kappa)
    (z u us vs x up vp : Fin n → ℝ) :
    ((NormalDist.mk n sigma mu).call z).2
        = (NormalDist.mk n sigma mu).log_density ((NormalDist.mk n sigma mu).call z).1
      ∧ ((UniformDist.mk n lo hi).call u).2
        = (UniformDist.mk n lo hi).log_density ((UniformDist.mk n lo hi).call u).1
      ∧ ((SemicircleDist.mk n r mus).call us vs).2
        = (SemicircleDist.mk n r mus).log_density
            ((SemicircleDist.mk n r mus).call us vs).1
      ∧ ((VonMisesDist.mk n kappa muv).call x).2
        = (VonMisesDist.mk n kappa muv).log_density
            ((VonMisesDist.mk n kappa muv).call x).1
      ∧ ((SphericalUniformDist.mk n).call up vp).2
        = (SphericalUniformDist.mk n).log_density
            ((SphericalUniformDist.mk n).call up vp).1 :=
  ⟨rfl, rfl, rfl, rfl, rfl⟩

/-- Witness for C2 at concrete parameters and draws. -/
theorem C2_sample_reports_own_log_density_witness :
    ((SphericalUniformDist.mk 3).call (fun _ => 0) fun _ => 0).2
      = (SphericalUniformDist.mk 3).log_density
          (((SphericalUniformDist.mk 3).call (fun _ => 0) fun _ => 0)).1 :=
  (C2_sample_reports_own_log_density 3 1 0 0 1 1 0 1 0
    (by norm_num) (by norm_num) (by norm_num) (by norm_num)
    (fun _ => 0) (fun _ => 0) (fun _ => 0) (fun _ => 0) (fun _ => 0)
    (fun _ => 0) fun _ => 0).2.2.2.2

/-- C5: every field value returned by `VonMisesDist` sampling lies in
`[0, 2π)`: the external torch sampler wraps its output into `[-π, π)` and
`__call__` shifts it by `π`. -/
theorem C5_von_mises_sample_in_interval (d : VonMisesDist) (hkappa : 0 ≤ d.kappa)
    (x : Fin d.n_lattice → ℝ) (i : Fin d.n_lattice) :
    ((d.call x).1 i) ∈ Set.Ico 0 (2 * π) := by
  have h2pi : (0 : ℝ) < 2 * π := by have := Real.pi_pos; linarith
  have hm := fmod_mem_Ico (x i + π + d.mean) (2 * π) h2pi
  have he : (d.call x).1 i = fmod (x i + π + d.mean) (2 * π) := by
    show d.generator (x i) + π = _
    unfold VonMisesDist.generator
    ring
  rw [he]
  exact hm

/-- Witness for C5 at concrete parameters and draw. -/
theorem C5_von_mises_sample_in_interval_witness :
    ((VonMisesDist.mk 1 1 0).call fun _ => 0).1 0 ∈ Set.Ico 0 (2 * π) :=
  C5_von_mises_sample_in_interval ⟨1, 1, 0⟩ (by norm_num) (fun _ => 0) 0

/-- C8: adding the same constant to every site's angle leaves the O2 action
log-density unchanged, for any configuration and any β. -/
theorem C8_o2_global_rotation_invariance (a : O2Action)
    (state : Fin a.n_lattice → ℝ) (c : ℝ) :
    a.log_density (fun i => state i + c) = a.log_density state := by
  unfold O2Action.log_density
  have h : (∑ i, ∑ dir, Real.cos ((fun i => state i + c) (a.shift dir i)
      - (fun i => state i + c) i))
      = ∑ i, ∑ dir, Real.cos (state (a.shift dir i) - state i) := by
    refine Finset.sum_congr rfl fun i _ => Finset.sum_congr rfl fun dir _ => ?_
    congr 1
    ring
  rw [h]

/-- C9: `SemicircleDist.log_density` has no domain guard: on a configuration
with a field value at distance at least `radius` from the mean it still
evaluates the closed-form sum (no error path exists in the code), and at such
a site the argument of the logarithm, `radius^2 - (x - mean)^2`, is
non-positive, where the analytic formula is undefined. -/
theorem C9_semicircle_log_density_no_domain_guard
    (n : ℕ) (r mu : ℝ) (sample : Fin n → ℝ) (i : Fin n)
    (hr : 0 ≤ r) (h : r ≤ |sample i - mu|) :
    r ^ 2 - (sample i - mu) ^ 2 ≤ 0 ∧
      (SemicircleDist.mk n r mu).log_density sample
        = (∑ j, 0.5 * Real.log (r ^ 2 - (sample j - mu) ^ 2))
          - (n : ℝ) * Real.log (π * r ^ 2 / 2) := by
  constructor
  · have h1 : r ^ 2 ≤ |sample i - mu| ^ 2 := pow_le_pow_left₀ hr h 2
    rw [sq_abs] at h1
    linarith
  · rfl

/-- Witness for C9: radius 1, mean 0, single site holding the value 2. -/
theorem C9_semicircle_log_density_no_domain_guard_witness :
    (1 : ℝ) ^ 2 - ((2 : ℝ) - 0) ^ 2 ≤ 0 ∧
      (SemicircleDist.mk 1 1 0).log_density (fun _ => 2)
        = (∑ _j : Fin 1, 0.5 * Real.log ((1 : ℝ) ^ 2 - ((2 : ℝ) - 0) ^ 2))
          - ((1 : ℕ) : ℝ) * Real.log (π * 1 ^ 2 / 2) :=
  C9_semicircle_log_density_no_domain_guard 1 1 0 (fun _ => 2) 0
    (by norm_num) (by norm_num)

/-- C10: the phi-four log-density is invariant under the global sign flip of
the field, for any couplings, geometry and convention flag. -/
theorem C10_phi_four_sign_flip_invariance (a : PhiFourAction)
    (phi_state : Fin a.n_lattice → ℝ) :
    a.log_density (fun i => -phi_state i) = a.log_density phi_state := by
  unfold PhiFourAction.log_density
  congr 1
  refine Finset.sum_congr rfl fun i _ => ?_
  have hinner : (∑ dir, (fun i => -phi_state i) (a.shift dir i)
      * (fun i => -phi_state i) i)
      = ∑ dir, phi_state (a.shift dir i) * phi_state i :=
    Finset.sum_congr rfl fun dir _ => by ring
  show a.version_factor * (2 + 0.5 * a.m_sq) * (-phi_state i) ^ 2
      + a.lam * (-phi_state i) ^ 4
      - a.version_factor * ∑ dir, (fun i => -phi_state i) (a.shift dir i)
          * (fun i => -phi_state i) i = _
  rw [hinner]
  ring

/-- C3: `O3Action.log_density` returns `sum over sites of log(sin θ)` minus
the action, where the action is the sum over sites and positive neighbour
directions of `-β * (cos θ * cos θ_nbr + sin θ * sin θ_nbr * cos(φ - φ_nbr))`,
exactly as the claim's formula states. -/
theorem C3_o3_log_density_formula (a : O3Action)
    (state : (Fin a.n_lattice → ℝ) × (Fin a.n_lattice → ℝ)) :
    a.log_density state = o3ClaimLogDensity a.beta a.shift state.1 state.2 := by
  unfold O3Action.log_density o3ClaimLogDensity
  congr 1
  rw [Finset.mul_sum]
  refine Finset.sum_congr rfl fun i _ => ?_
  rw [Finset.mul_sum]
  refine Finset.sum_congr rfl fun dir _ => ?_
  rw [show state.2 (a.shift dir i) - state.2 i
      = -(state.2 i - state.2 (a.shift dir i)) by ring, Real.cos_neg]
  ring

/-- C4: `PhiFourAction.log_density` returns the negation of the sum over
sites of `version_factor * (2 + m_sq/2) * φ² + lam * φ⁴ - version_factor *
sum over directions of φ(site) * φ(neighbour)`, with `version_factor = 2`
when `use_arxiv_version` is set and `1` otherwise, exactly as the claim's
formula states. -/
theorem C4_phi_four_log_density_formula (a : PhiFourAction)
    (phi_state : Fin a.n_lattice → ℝ) :
    a.log_density phi_state
      = phiFourClaimLogDensity a.m_sq a.lam a.use_arxiv_version a.shift
          phi_state := by
  unfold PhiFourAction.log_density phiFourClaimLogDensity
    PhiFourAction.version_factor
  congr 1
  refine Finset.sum_congr rfl fun i _ => ?_
  rw [show (∑ dir, phi_state (a.shift dir i) * phi_state i)
      = ∑ dir, phi_state i * phi_state (a.shift dir i) from
    Finset.sum_congr rfl fun dir _ => mul_comm _ _]
  ring

/-- C6 (amended): what construction actually does. `NormalDist` fails (a
`ZeroDivisionError` at `sigma = 0`, else a `ValueError` from `log`) exactly
when `sigma ≤ 0`; `UniformDist` fails exactly when `hi ≤ lo`; but
`SemicircleDist` fails only when `radius = 0`, since `log(pi * radius**2 / 2)`
is well-defined for negative radius. No `ConfigurationError` class exists. -/
theorem C6_constructor_validation_amended (n : ℕ) (sigma mu lo hi r mus : ℝ) :
    (NormalDist.init n sigma mu = none ↔ sigma ≤ 0) ∧
      (UniformDist.init n lo hi = none ↔ hi ≤ lo) ∧
      (SemicircleDist.init n r mus = none ↔ r = 0) := by
  refine ⟨?_, ?_, ?_⟩
  · unfold NormalDist.init pyDiv pyLog
    by_cases hs : sigma = 0
    · subst hs
      norm_num
    · have h0 : 2 * sigma ^ 2 ≠ 0 := by positivity
      rw [if_neg h0, Option.some_bind]
      by_cases hpos : 0 < sigma
      · have hp : 0 < Real.sqrt (2 * π) * sigma :=
          mul_pos (Real.sqrt_pos.mpr (by positivity)) hpos
        rw [if_pos hp, Option.map_some']
        constructor
        · intro hcon
          exact (Option.some_ne_none _ hcon).elim
        · intro hle
          exact absurd hle (by linarith)
      · have hneg : sigma < 0 := lt_of_le_of_ne (not_lt.mp hpos) hs
        have hq : ¬ 0 < Real.sqrt (2 * π) * sigma := by
          have h1 : 0 ≤ Real.sqrt (2 * π) := Real.sqrt_nonneg _
          intro hcon
          nlinarith
        rw [if_neg hq, Option.map_none']
        constructor
        · intro _
          linarith
        · intro _
          rfl
  · unfold UniformDist.init pyLog
    by_cases h : 0 < hi - lo
    · rw [if_pos h, Option.map_some']
      constructor
      · intro hcon
        exact (Option.some_ne_none _ hcon).elim
      · intro hle
        exact absurd hle (by linarith)
    · rw [if_neg h, Option.map_none']
      constructor
      · intro _
        linarith [not_lt.mp h]
      · intro _
        rfl
  · unfold SemicircleDist.init pyLog
    by_cases h : r = 0
    · subst h
      rw [if_neg (by norm_num), Option.map_none']
      simp
    · have hp : 0 < π * r ^ 2 / 2 := by
        have := Real.pi_pos
        positivity
      rw [if_pos hp, Option.map_some']
      constructor
      · intro hcon
        exact (Option.some_ne_none _ hcon).elim
      · intro h0
        exact absurd h0 h

/-- C6 (counterexample): `SemicircleDist` constructed with the invalid radius
`-1` does not fail — `log(pi * (-1)**2 / 2) = log(pi / 2)` is perfectly
well-defined — contradicting the claim that any invalid construction raises. -/
theorem C6_counterexample_negative_radius_accepted :
    SemicircleDist.init 4 (-1) 0 = some (SemicircleDist.mk 4 (-1) 0) := by
  unfold SemicircleDist.init pyLog
  rw [if_pos]
  · rfl
  · have := Real.pi_pos
    nlinarith

/-- A shift table on `n ≥ 2` sites whose rows are onto (true of any periodic
lattice translation) makes the torch shape guard succeed exactly on matching
configurations: any entry can be out of bounds for a shorter configuration,
and a longer configuration cannot broadcast against `n ≥ 2`. -/
theorem shape_guard_iff {n d : ℕ} (shift : Fin d → Fin n → Fin n) (m : ℕ)
    (h2 : 2 ≤ n) (hd : 0 < d) (hs : ∀ dir, Function.Surjective (shift dir)) :
    (indexOK shift m ∧ broadcastOK n m) ↔ m = n := by
  constructor
  · rintro ⟨hidx, hb | hb | hb⟩
    · exact hb.symm
    · omega
    · exfalso
      obtain ⟨i, hi⟩ := hs ⟨0, hd⟩ ⟨1, by omega⟩
      have hlt := hidx ⟨0, hd⟩ i
      rw [hi] at hlt
      simp only at hlt
      omega
  · rintro rfl
    exact ⟨fun dir i => (shift dir i).isLt, Or.inl rfl⟩

/-- C7 (amended): for every action variant over a geometry with at least two
sites and a periodic (onto) shift table, a configuration of mismatched
lattice size makes `log_density` raise (out-of-bounds advanced index or
incompatible broadcast), and a matching configuration evaluates without
error. The claim as stated fails only for a single-site geometry, where a
longer configuration is silently broadcast, and the raised error is a torch
`IndexError`/`RuntimeError` — no `ShapeError` class exists. -/
theorem C7_action_shape_mismatch_amended
    (a : PhiFourAction) (b : O2Action) (c : O3Action)
    {m1 m2 m3 : ℕ} (phi : Fin m1 → ℝ) (st : Fin m2 → ℝ)
    (pol az : Fin m3 → ℝ)
    (ha2 : 2 ≤ a.n_lattice) (had : 0 < a.n_shift)
    (has : ∀ dir, Function.Surjective (a.shift dir))
    (hb2 : 2 ≤ b.n_lattice) (hbd : 0 < b.n_shift)
    (hbs : ∀ dir, Function.Surjective (b.shift dir))
    (hc2 : 2 ≤ c.n_lattice) (hcd : 0 < c.n_shift)
    (hcs : ∀ dir, Function.Surjective (c.shift dir)) :
    ((m1 ≠ a.n_lattice → a.log_density_checked phi = none)
      ∧ (m1 = a.n_lattice → ∃ v, a.log_density_checked phi = some v))
    ∧ ((m2 ≠ b.n_lattice → b.log_density_checked st = none)
      ∧ (m2 = b.n_lattice → ∃ v, b.log_density_checked st = some v))
    ∧ ((m3 ≠ c.n_lattice → c.log_density_checked pol az = none)
      ∧ (m3 = c.n_lattice → ∃ v, c.log_density_checked pol az = some v)) := by
  have hga := shape_guard_iff a.shift m1 ha2 had has
  have hgb := shape_guard_iff b.shift m2 hb2 hbd hbs
  have hgc := shape_guard_iff c.shift m3 hc2 hcd hcs
  refine ⟨⟨?_, ?_⟩, ⟨?_, ?_⟩, ⟨?_, ?_⟩⟩
  · intro hne
    unfold PhiFourAction.log_density_checked
    rw [if_neg (fun hg => hne (hga.mp hg))]
  · intro heq
    unfold PhiFourAction.log_density_checked
    rw [if_pos (hga.mpr heq)]
    exact ⟨_, rfl⟩
  · intro hne
    unfold O2Action.log_density_checked
    rw [if_neg (fun hg => hne (hgb.mp hg))]
  · intro heq
    unfold O2Action.log_density_checked
    rw [if_pos (hgb.mpr heq)]
    exact ⟨_, rfl⟩
  · intro hne
    unfold O3Action.log_density_checked
    rw [if_neg (fun hg => hne (hgc.mp hg))]
  · intro heq
    unfold O3Action.log_density_checked
    rw [if_pos (hgc.mpr heq)]
    exact ⟨_, rfl⟩

/-- Witness for the amended C7: a 2-site geometry with the cyclic shift, a
length-3 configuration for the phi-four action. -/
theorem C7_action_shape_mismatch_amended_witness :
    (PhiFourAction.mk 0 0 false 2 1 fun _ j => j + 1).log_density_checked
      ![0, 0, 0] = none :=
  ((C7_action_shape_mismatch_amended
      (PhiFourAction.mk 0 0 false 2 1 fun _ j => j + 1)
      (O2Action.mk 1 2 1 fun _ j => j + 1)
      (O3Action.mk 1 2 1 fun _ j => j + 1)
      ![0, 0, 0] ![0, 0] ![0, 0] ![0, 0]
      (by norm_num) (by norm_num) (by decide)
      (by norm_num) (by norm_num) (by decide)
      (by norm_num) (by norm_num) (by decide)).1).1 (by norm_num)

/-- C7 (counterexample): with a single-site geometry (`n_lattice = 1`, shift
table all zero, as a 1×1 periodic lattice produces) the phi-four
`log_density` applied to a two-site configuration does not raise: torch
silently broadcasts the trailing dimensions 1 and 2 and returns a value. -/
theorem C7_counterexample_single_site_broadcast :
    (PhiFourAction.mk 0 0 false 1 2 fun _ _ => 0).n_lattice ≠ 2 ∧
      (PhiFourAction.mk 0 0 false 1 2 fun _ _ => 0).log_density_checked
        ![1, 0] = some 0 := by
  constructor
  · decide
  · unfold PhiFourAction.log_density_checked
    rw [if_pos ⟨fun dir i => by norm_num [atD], Or.inr (Or.inl rfl)⟩]
    congr 1
    show -(∑ j : Fin 2, _) = (0 : ℝ)
    rw [Fin.sum_univ_two]
    norm_num [atD, shiftAt, bcastIdx, PhiFourAction.version_factor,
      Fin.sum_univ_two]

end Anvil
